import Mathlib

/-
Verification of the book-synchronisation pipeline in `src/main.rs`.

The program walks a list of source document directories, filters entries by
file extension, and copies each matching file into a destination directory
using an exclusive (create-if-absent) create, counting three statistics:
found / not-copied-because-already-present / copied.

Shallow embedding conventions:
  - An OS string (Unix `OsStr`) is an arbitrary byte sequence, modelled as
    `List Nat`.  `Path::to_str` succeeds exactly when the bytes are valid
    UTF-8, so a faithful UTF-8 validity checker is included.
  - A path is its list of normal components (the directory walk only ever
    produces such paths).
  - The destination filesystem namespace is the set of paths that currently
    exist there, modelled as a `List Path`.
  - Failure sources external to the model (source-file open failures,
    non-EEXIST create failures, `io::copy` failures) are supplied by an
    `Env` of oracles; the destination-already-exists failure of the
    exclusive create is determined by the filesystem state itself, as in
    the code.
  - The concurrent pipeline is sequentialised: the channels are
    single-producer/single-consumer and order-preserving, and all the
    claims below concern counts, final filesystem state, and error
    propagation, none of which depend on task interleaving.
-/

set_option autoImplicit false

namespace SyncBooks

/-- Bytes of one OS string (one path component, on Unix arbitrary bytes). -/
abbrev OsString := List Nat

/-- A filesystem path, as its list of normal components. -/
abbrev Path := List OsString

/-- The set of files currently existing in the destination namespace. -/
abbrev FS := List Path

/-- Bytes of an ASCII string literal (for ASCII this equals its UTF-8 bytes). -/
def asciiBytes (s : String) : List Nat :=
  s.data.map Char.toNat

/-- Is `b` a UTF-8 continuation byte (`10xxxxxx`)? -/
def utf8_cont (b : Nat) : Bool :=
  decide (0x80 ≤ b ∧ b ≤ 0xBF)

/-- UTF-8 validity of a byte sequence, per RFC 3629 (what Rust's
`Path::to_str` / `str::from_utf8` accepts): no overlong encodings, no
surrogates, no code points above U+10FFFF. -/
def utf8_valid : List Nat → Bool
  | [] => true
  | b :: bs =>
    if b ≤ 0x7F then utf8_valid bs
    else if 0xC2 ≤ b ∧ b ≤ 0xDF then
      match bs with
      | b1 :: rest => utf8_cont b1 && utf8_valid rest
      | [] => false
    else if b = 0xE0 then
      match bs with
      | b1 :: b2 :: rest =>
        decide (0xA0 ≤ b1 ∧ b1 ≤ 0xBF) && utf8_cont b2 && utf8_valid rest
      | _ => false
    else if (0xE1 ≤ b ∧ b ≤ 0xEC) ∨ b = 0xEE ∨ b = 0xEF then
      match bs with
      | b1 :: b2 :: rest => utf8_cont b1 && utf8_cont b2 && utf8_valid rest
      | _ => false
    else if b = 0xED then
      match bs with
      | b1 :: b2 :: rest =>
        decide (0x80 ≤ b1 ∧ b1 ≤ 0x9F) && utf8_cont b2 && utf8_valid rest
      | _ => false
    else if b = 0xF0 then
      match bs with
      | b1 :: b2 :: b3 :: rest =>
        decide (0x90 ≤ b1 ∧ b1 ≤ 0xBF) && utf8_cont b2 && utf8_cont b3 && utf8_valid rest
      | _ => false
    else if 0xF1 ≤ b ∧ b ≤ 0xF3 then
      match bs with
      | b1 :: b2 :: b3 :: rest =>
        utf8_cont b1 && utf8_cont b2 && utf8_cont b3 && utf8_valid rest
      | _ => false
    else if b = 0xF4 then
      match bs with
      | b1 :: b2 :: b3 :: rest =>
        decide (0x80 ≤ b1 ∧ b1 ≤ 0x8F) && utf8_cont b2 && utf8_cont b3 && utf8_valid rest
      | _ => false
    else false

/-- `path_str` (main.rs lines 125-128) succeeds exactly when the whole path
decodes to UTF-8; as the component separator is ASCII, that is exactly when
every component's bytes are valid UTF-8. -/
def path_str_ok (p : Path) : Bool :=
  p.all utf8_valid

/-- Helper for extension extraction.  The input is the file name reversed;
on `extRev ++ 0x2E :: preRev` with `extRev` dot-free it returns
`(preRev, ext)`, i.e. splits the name at its last dot. -/
def ext_split_rev : List Nat → Option (List Nat × List Nat)
  | [] => none
  | b :: bs =>
    if b = 0x2E then some (bs, [])
    else (ext_split_rev bs).map (fun pe => (pe.1, pe.2 ++ [b]))

/-- Rust `std::path`'s file-name splitting (`rsplit_file_at_dot` feeding
`Path::extension`): the extension is the portion after the last `.` of the
file name, and is `none` when the name is `..`, when it has no dot, or when
everything before the last dot is empty (a leading-dot hidden file). -/
def os_extension (name : OsString) : Option OsString :=
  if name = [0x2E, 0x2E] then none
  else
    match ext_split_rev name.reverse with
    | none => none
    | some (preRev, ext) => if preRev = [] then none else some ext

/-- Rust `Path::file_name`: the final normal component; `none` for an empty
path or when the path ends in the parent-directory component `..`. -/
def file_name (p : Path) : Option OsString :=
  match p.getLast? with
  | none => none
  | some c => if c = [0x2E, 0x2E] then none else some c

/-- Rust `Path::extension`: the extension of the file name, when both exist. -/
def path_extension (p : Path) : Option OsString :=
  match file_name p with
  | none => none
  | some n => os_extension n

/-- main.rs line 41: the fixed set of extensions to synchronise.  Note the
second entry carries a leading dot, exactly as in the source. -/
def EXTENSIONS_TO_SYNCHRONISE : List OsString :=
  [asciiBytes "epub", asciiBytes ".pdf"]

/-- main.rs lines 56-61: the statistics events. -/
inductive Statistic where
  | FoundSrcDocument
  | NotCopiedBecauseAlreadyExistedAtDest
  | Copied
deriving DecidableEq, Repr

/-- Kinds of I/O-level failure the pipeline can encounter. `utf8Decode`
models `path_str`'s error; `alreadyExists` is the distinct error of the
exclusive create when the destination is present; the rest model external
failure causes (oracle-supplied). -/
inductive IoError where
  | alreadyExists
  | permissionDenied
  | notFound
  | diskFull
  | otherIo
  | utf8Decode
deriving DecidableEq, Repr

deriving instance DecidableEq for Except

/-- One result of the recursive walk of a source directory: a yielded entry
path or a traversal error (async_walkdir's stream items). -/
abbrev WalkStream := List (Except IoError Path)

/-- main.rs lines 102-121, single-directory loop of `find_books`: walk the
entry stream; an entry whose extension is in `extensions_to_match` sends one
`FoundSrcDocument` statistic and the candidate path; the first stream error
is returned at once, producing nothing further.  Returns the candidates
emitted, in order, and the traversal error if one occurred. -/
def find_books_dir (exts : List OsString) : WalkStream → List Path × Option IoError
  | [] => ([], none)
  | Except.ok p :: rest =>
    match path_extension p with
    | some ext =>
      if ext ∈ exts then
        ((find_books_dir exts rest).1.cons p, (find_books_dir exts rest).2)
      else find_books_dir exts rest
    | none => find_books_dir exts rest
  | Except.error e :: _ => ([], some e)

/-- main.rs lines 96-123, `find_books`: the outer loop over the source
directories.  A traversal error in one directory propagates immediately
(`Err(anyhow!(err))?`), so later directories are not walked. -/
def find_books (exts : List OsString) : List WalkStream → List Path × Option IoError
  | [] => ([], none)
  | d :: ds =>
    match find_books_dir exts d with
    | (cs, none) => (cs ++ (find_books exts ds).1, (find_books exts ds).2)
    | (cs, some e) => (cs, some e)

/-- Oracles for the failure sources outside the model's filesystem state:
`open_src` is a failure of `File::open` on the source (line 140),
`create_failure` a non-already-exists failure of the exclusive create
(lines 142-146), and `copy_result` a failure of the n-th dispatched task's
`io::copy` (line 152), indexed in dispatch order. -/
structure Env where
  open_src : Path → Option IoError
  create_failure : Path → Option IoError
  copy_result : Nat → Option IoError

/-- Result of one `copy_to_non_existant` call: the filesystem after the
attempt, and either a setup error (outer `error`) or the eventual result of
the dispatched copy task (outer `ok`). -/
structure CopyAttempt where
  fs : FS
  outcome : Except IoError (Except IoError Unit)
deriving DecidableEq, Repr

/-- main.rs lines 130-157, `copy_to_non_existant`.  In dry-run mode both
paths are decoded (failing with the decode error otherwise), the intent
line is printed, and a task that immediately succeeds is returned, with no
filesystem change.  In real mode: open the source (oracle), then attempt
the exclusive create — `OpenOptions::new().write(true).create_new(true)` —
which fails with the distinct already-exists error exactly when the
destination is present, and otherwise may fail for an external reason
(oracle) or else atomically creates the file; then both paths are decoded
for the task's completion message (note: after the create), and the copy
task is dispatched, its eventual result given by the `copy_result` oracle. -/
def copy_to_non_existant (env : Env) (src_path dest_path : Path) (dry_run : Bool)
    (fs : FS) (task_idx : Nat) : CopyAttempt :=
  if dry_run then
    if path_str_ok src_path = false then ⟨fs, Except.error IoError.utf8Decode⟩
    else if path_str_ok dest_path = false then ⟨fs, Except.error IoError.utf8Decode⟩
    else ⟨fs, Except.ok (Except.ok ())⟩
  else
    match env.open_src src_path with
    | some e => ⟨fs, Except.error e⟩
    | none =>
      if dest_path ∈ fs then ⟨fs, Except.error IoError.alreadyExists⟩
      else
        match env.create_failure dest_path with
        | some e => ⟨fs, Except.error e⟩
        | none =>
          if path_str_ok src_path = false then
            ⟨dest_path :: fs, Except.error IoError.utf8Decode⟩
          else if path_str_ok dest_path = false then
            ⟨dest_path :: fs, Except.error IoError.utf8Decode⟩
          else
            ⟨dest_path :: fs,
             Except.ok (match env.copy_result task_idx with
                        | some e => Except.error e
                        | none => Except.ok ())⟩

/-- The Coordinator's mutable state during `sync_books`' receive loop: the
destination filesystem, the results the dispatched copy tasks will yield
(in dispatch order, mirroring `copy_tasks`), and the statistics sent. -/
structure SyncState where
  fs : FS
  tasks : List (Except IoError Unit)
  stats : List Statistic
deriving DecidableEq, Repr

/-- main.rs lines 167-188, one iteration of `sync_books`' receive loop.  A
book with no extractable file name is silently dropped.  Otherwise the copy
attempt is made; `if let Ok(copy_op) = ...` keeps the task handle and sends
`Copied` on success, while on ANY setup error it decodes the destination
path (propagating the decode error as the loop's own failure), prints the
already-exists notice, and sends `NotCopiedBecauseAlreadyExistedAtDest`. -/
def sync_one (env : Env) (dest_dir : Path) (dry_run : Bool) (st : SyncState)
    (book : Path) : SyncState × Option IoError :=
  match file_name book with
  | none => (st, none)
  | some book_name =>
    let dest_path := dest_dir ++ [book_name]
    let attempt := copy_to_non_existant env book dest_path dry_run st.fs st.tasks.length
    match attempt.outcome with
    | Except.ok task =>
      ({ fs := attempt.fs, tasks := st.tasks ++ [task],
         stats := st.stats ++ [Statistic.Copied] }, none)
    | Except.error _ =>
      if path_str_ok dest_path then
        ({ st with fs := attempt.fs,
                   stats := st.stats ++ [Statistic.NotCopiedBecauseAlreadyExistedAtDest] },
         none)
      else
        ({ st with fs := attempt.fs }, some IoError.utf8Decode)

/-- The receive loop of `sync_books` over the whole candidate sequence; a
fatal error aborts it, carrying the state reached so far. -/
def sync_books_loop (env : Env) (dest_dir : Path) (dry_run : Bool) :
    SyncState → List Path → SyncState × Option IoError
  | st, [] => (st, none)
  | st, b :: bs =>
    match sync_one env dest_dir dry_run st b with
    | (st', none) => sync_books_loop env dest_dir dry_run st' bs
    | (st', some e) => (st', some e)

/-- main.rs lines 190-192: `for task in copy_tasks { task.await?? }` — await
the dispatched tasks in order, returning the first failure at once. -/
def join_tasks : List (Except IoError Unit) → Option IoError
  | [] => none
  | Except.ok () :: rest => join_tasks rest
  | Except.error e :: _ => some e

/-- How many task handles the join loop of lines 190-192 actually awaits:
all of them when none fails, otherwise those up to and including the first
failing one (the `?` returns before the remaining handles are awaited). -/
def awaited_count : List (Except IoError Unit) → Nat
  | [] => 0
  | Except.ok () :: rest => awaited_count rest + 1
  | Except.error _ :: _ => 1

/-- main.rs lines 159-195, `sync_books`: the receive loop followed by the
join loop over the collected task handles. -/
def sync_books (env : Env) (dest_dir : Path) (dry_run : Bool) (fs0 : FS)
    (books : List Path) : SyncState × Option IoError :=
  match sync_books_loop env dest_dir dry_run ⟨fs0, [], []⟩ books with
  | (st, some e) => (st, some e)
  | (st, none) => (st, join_tasks st.tasks)

/-- main.rs lines 263-281: the three counters of `collect_stats`. -/
structure RunSummary where
  found_src_documents : Nat
  not_copied : Nat
  copied : Nat
deriving DecidableEq, Repr

/-- The accumulation loop of `collect_stats` (lines 268-281). -/
def collect_stats_loop (r : RunSummary) : List Statistic → RunSummary
  | [] => r
  | Statistic.FoundSrcDocument :: rest =>
    collect_stats_loop { r with found_src_documents := r.found_src_documents + 1 } rest
  | Statistic.NotCopiedBecauseAlreadyExistedAtDest :: rest =>
    collect_stats_loop { r with not_copied := r.not_copied + 1 } rest
  | Statistic.Copied :: rest =>
    collect_stats_loop { r with copied := r.copied + 1 } rest

/-- main.rs lines 263-305, `collect_stats`: tally the received statistics
starting from zero counters. -/
def collect_stats (stats : List Statistic) : RunSummary :=
  collect_stats_loop ⟨0, 0, 0⟩ stats

/-- Outcome of a whole pipeline run: final destination filesystem, the
summary the Aggregator computes, and the first fatal error the top level
observes (the driver awaits `sync_books` first, then the Scanner). -/
structure RunResult where
  fs : FS
  summary : RunSummary
  err : Option IoError
deriving DecidableEq, Repr

/-- main.rs lines 307-345, `main`'s pipeline: the Scanner's candidates feed
the Coordinator; the Scanner's per-candidate `FoundSrcDocument` events and
the Coordinator's outcome events feed the Aggregator. -/
def run_pipeline (env : Env) (exts : List OsString) (dirs : List WalkStream)
    (dest_dir : Path) (dry_run : Bool) (fs0 : FS) : RunResult :=
  let scanned := find_books exts dirs
  let synced := sync_books env dest_dir dry_run fs0 scanned.1
  { fs := synced.1.fs
    summary := collect_stats
      (scanned.1.map (fun _ => Statistic.FoundSrcDocument) ++ synced.1.stats)
    err := match synced.2 with
           | some e => some e
           | none => scanned.2 }

/-- An environment in which no external failure occurs. -/
def benign_env : Env :=
  { open_src := fun _ => none
    create_failure := fun _ => none
    copy_result := fun _ => none }

/-! Counting helpers for the three statistics. -/

/-- Occurrences of `FoundSrcDocument` in an event list. -/
def count_found : List Statistic → Nat
  | [] => 0
  | Statistic.FoundSrcDocument :: rest => count_found rest + 1
  | _ :: rest => count_found rest

/-- Occurrences of `NotCopiedBecauseAlreadyExistedAtDest` in an event list. -/
def count_not_copied : List Statistic → Nat
  | [] => 0
  | Statistic.NotCopiedBecauseAlreadyExistedAtDest :: rest => count_not_copied rest + 1
  | _ :: rest => count_not_copied rest

/-- Occurrences of `Copied` in an event list. -/
def count_copied : List Statistic → Nat
  | [] => 0
  | Statistic.Copied :: rest => count_copied rest + 1
  | _ :: rest => count_copied rest

lemma count_found_append (l₁ l₂ : List Statistic) :
    count_found (l₁ ++ l₂) = count_found l₁ + count_found l₂ := by
  induction l₁ with
  | nil => simp [count_found]
  | cons s rest ih => cases s <;> simp [count_found, ih] <;> omega

lemma count_not_copied_append (l₁ l₂ : List Statistic) :
    count_not_copied (l₁ ++ l₂) = count_not_copied l₁ + count_not_copied l₂ := by
  induction l₁ with
  | nil => simp [count_not_copied]
  | cons s rest ih => cases s <;> simp [count_not_copied, ih] <;> omega

lemma count_copied_append (l₁ l₂ : List Statistic) :
    count_copied (l₁ ++ l₂) = count_copied l₁ + count_copied l₂ := by
  induction l₁ with
  | nil => simp [count_copied]
  | cons s rest ih => cases s <;> simp [count_copied, ih] <;> omega

lemma length_eq_counts (l : List Statistic) :
    l.length = count_found l + count_not_copied l + count_copied l := by
  induction l with
  | nil => simp [count_found, count_not_copied, count_copied]
  | cons s rest ih =>
    cases s <;> simp [count_found, count_not_copied, count_copied, ih] <;> omega

lemma counts_of_map_found {α : Type} (l : List α) :
    count_found (l.map fun _ => Statistic.FoundSrcDocument) = l.length ∧
    count_not_copied (l.map fun _ => Statistic.FoundSrcDocument) = 0 ∧
    count_copied (l.map fun _ => Statistic.FoundSrcDocument) = 0 := by
  induction l with
  | nil => simp [count_found, count_not_copied, count_copied]
  | cons a rest ih => simpa [count_found, count_not_copied, count_copied] using ih

lemma counts_of_replicate_not_copied (n : Nat) :
    count_found (List.replicate n Statistic.NotCopiedBecauseAlreadyExistedAtDest) = 0 ∧
    count_not_copied (List.replicate n Statistic.NotCopiedBecauseAlreadyExistedAtDest) = n ∧
    count_copied (List.replicate n Statistic.NotCopiedBecauseAlreadyExistedAtDest) = 0 := by
  induction n with
  | zero => simp [count_found, count_not_copied, count_copied]
  | succ n ih =>
    simpa [List.replicate_succ, count_found, count_not_copied, count_copied] using ih

lemma collect_stats_loop_spec (l : List Statistic) : ∀ r : RunSummary,
    collect_stats_loop r l =
      ⟨r.found_src_documents + count_found l, r.not_copied + count_not_copied l,
       r.copied + count_copied l⟩ := by
  induction l with
  | nil => intro r; simp [collect_stats_loop, count_found, count_not_copied, count_copied]
  | cons s rest ih =>
    intro r
    cases s <;>
      simp [collect_stats_loop, count_found, count_not_copied, count_copied, ih] <;>
      omega

/-- The Aggregator computes exactly the three occurrence counts. -/
lemma collect_stats_spec (l : List Statistic) :
    collect_stats l = ⟨count_found l, count_not_copied l, count_copied l⟩ := by
  simpa using collect_stats_loop_spec l ⟨0, 0, 0⟩

/-! Path helpers. -/

lemma mem_of_getLast?_eq_some {α : Type} {l : List α} {a : α}
    (h : l.getLast? = some a) : a ∈ l := by
  have hm : a ∈ l.getLast? := by simp [Option.mem_def, h]
  rcases List.mem_getLast?_eq_getLast hm with ⟨hne, rfl⟩
  exact List.getLast_mem hne

lemma mem_of_file_name {p : Path} {n : OsString} (h : file_name p = some n) :
    n ∈ p := by
  unfold file_name at h
  rcases hg : p.getLast? with _ | c
  · rw [hg] at h; cases h
  · rw [hg] at h
    by_cases hc : c = [0x2E, 0x2E]
    · simp [hc] at h
    · simp [hc] at h
      exact h ▸ mem_of_getLast?_eq_some hg

/-- A path with an extension has a file name (`Path::extension` is computed
from `Path::file_name`). -/
lemma file_name_isSome_of_path_extension {p : Path} {e : OsString}
    (h : path_extension p = some e) : ∃ n, file_name p = some n := by
  unfold path_extension at h
  rcases hf : file_name p with _ | n
  · rw [hf] at h; cases h
  · exact ⟨n, rfl⟩

/-- A valid-UTF-8 path's file name is itself valid UTF-8. -/
lemma utf8_valid_file_name {p : Path} {n : OsString}
    (hp : path_str_ok p = true) (hn : file_name p = some n) :
    utf8_valid n = true := by
  have hmem := mem_of_file_name hn
  exact List.all_eq_true.mp hp n hmem

lemma path_str_ok_append_file_name {dest_dir p : Path} {n : OsString}
    (hd : path_str_ok dest_dir = true) (hp : path_str_ok p = true)
    (hn : file_name p = some n) :
    path_str_ok (dest_dir ++ [n]) = true := by
  unfold path_str_ok at hd ⊢
  rw [List.all_append]
  simp only [hd, Bool.true_and, List.all_cons, List.all_nil, Bool.and_true]
  exact utf8_valid_file_name hp hn

/-! Scanner lemmas. -/

/-- Every candidate a single directory walk emits matched the extension
filter. -/
lemma find_books_dir_mem (exts : List OsString) :
    ∀ (s : WalkStream) (p : Path), p ∈ (find_books_dir exts s).1 →
      ∃ e, path_extension p = some e ∧ e ∈ exts := by
  intro s
  induction s with
  | nil => intro p hp; simp [find_books_dir] at hp
  | cons x rest ih =>
    intro p hp
    match x with
    | Except.error e => simp [find_books_dir] at hp
    | Except.ok q =>
      rcases hq : path_extension q with _ | ext
      · rw [find_books_dir, hq] at hp
        exact ih p hp
      · rw [find_books_dir, hq] at hp
        by_cases hin : ext ∈ exts
        · simp [hin] at hp
          rcases hp with hp | hp
          · subst hp; exact ⟨ext, hq, hin⟩
          · exact ih p hp
        · simp [hin] at hp
          exact ih p hp

/-- Every candidate the Scanner emits matched the extension filter. -/
lemma find_books_mem (exts : List OsString) :
    ∀ (dirs : List WalkStream) (p : Path), p ∈ (find_books exts dirs).1 →
      ∃ e, path_extension p = some e ∧ e ∈ exts := by
  intro dirs
  induction dirs with
  | nil => intro p hp; simp [find_books] at hp
  | cons d ds ih =>
    intro p hp
    rcases hd : find_books_dir exts d with ⟨cs, _ | e⟩
    · rw [find_books, hd] at hp
      simp at hp
      rcases hp with hp | hp
      · exact find_books_dir_mem exts d p (by rw [hd]; exact hp)
      · exact ih p hp
    · rw [find_books, hd] at hp
      simp at hp
      exact find_books_dir_mem exts d p (by rw [hd]; exact hp)

/-- A walk stream that contains no traversal error. -/
def stream_clean (s : WalkStream) : Bool :=
  s.all fun x => match x with | Except.ok _ => true | Except.error _ => false

lemma find_books_dir_clean (exts : List OsString) :
    ∀ s : WalkStream, stream_clean s = true → (find_books_dir exts s).2 = none := by
  intro s
  induction s with
  | nil => intro _; simp [find_books_dir]
  | cons x rest ih =>
    intro hc
    match x with
    | Except.error e => simp [stream_clean] at hc
    | Except.ok q =>
      have hc' : stream_clean rest = true := by
        simpa [stream_clean] using hc
      rcases hq : path_extension q with _ | ext
      · rw [find_books_dir, hq]; exact ih hc'
      · rw [find_books_dir, hq]
        by_cases hin : ext ∈ exts
        · simp [hin]; exact ih hc'
        · simp [hin]; exact ih hc'

/-- An error-free prefix of a directory walk followed by a traversal error:
the loop returns exactly that first error, with only the candidates of the
prefix emitted; the entries after the error are never examined. -/
lemma find_books_dir_error (exts : List OsString) :
    ∀ (es₁ : WalkStream) (e : IoError) (es₂ : WalkStream),
      stream_clean es₁ = true →
      find_books_dir exts (es₁ ++ Except.error e :: es₂) =
        ((find_books_dir exts es₁).1, some e) := by
  intro es₁
  induction es₁ with
  | nil => intro e es₂ _; simp [find_books_dir]
  | cons x rest ih =>
    intro e es₂ hc
    match x with
    | Except.error e' => simp [stream_clean] at hc
    | Except.ok q =>
      have hc' : stream_clean rest = true := by
        simpa [stream_clean] using hc
      rcases hq : path_extension q with _ | ext
      · simp only [List.cons_append, find_books_dir, hq, List.append_eq]
        exact ih e es₂ hc'
      · by_cases hin : ext ∈ exts
        · simp only [List.cons_append, find_books_dir, hq, if_pos hin, List.append_eq]
          rw [ih e es₂ hc']
        · simp only [List.cons_append, find_books_dir, hq, if_neg hin, List.append_eq]
          exact ih e es₂ hc'

/-- The Scanner over many directories: the first traversal error, wherever
it occurs, makes `find_books` return that error immediately, with no
candidate from any later position. -/
lemma find_books_error (exts : List OsString) :
    ∀ (ds₁ : List WalkStream) (es₁ : WalkStream) (e : IoError) (es₂ : WalkStream)
      (ds₂ : List WalkStream),
      (∀ d ∈ ds₁, stream_clean d = true) → stream_clean es₁ = true →
      find_books exts (ds₁ ++ (es₁ ++ Except.error e :: es₂) :: ds₂) =
        ((find_books exts ds₁).1 ++ (find_books_dir exts es₁).1, some e) := by
  intro ds₁
  induction ds₁ with
  | nil =>
    intro es₁ e es₂ ds₂ _ hc
    simp [find_books, find_books_dir_error exts es₁ e es₂ hc]
  | cons d ds ih =>
    intro es₁ e es₂ ds₂ hds hc
    have hd : stream_clean d = true := hds d (by simp)
    have hds' : ∀ d' ∈ ds, stream_clean d' = true := fun d' h => hds d' (by simp [h])
    have h2 := find_books_dir_clean exts d hd
    rcases hfd : find_books_dir exts d with ⟨cs, oe⟩
    have hoe : oe = none := by rw [hfd] at h2; exact h2
    subst hoe
    simp only [List.cons_append, find_books, hfd, List.append_eq]
    rw [ih es₁ e es₂ ds₂ hds' hc]
    simp

/-! Copy-attempt lemmas. -/

/-- A copy attempt either leaves the filesystem unchanged or creates exactly
the destination file. -/
lemma copy_fs_cases (env : Env) (src dest : Path) (dry : Bool) (fs : FS) (i : Nat) :
    (copy_to_non_existant env src dest dry fs i).fs = fs ∨
    (copy_to_non_existant env src dest dry fs i).fs = dest :: fs := by
  unfold copy_to_non_existant
  rcases dry with _ | _
  · simp only [Bool.false_eq_true, if_false]
    rcases env.open_src src with _ | e
    · simp only
      by_cases hm : dest ∈ fs
      · simp [hm]
      · simp only [hm, if_false, if_neg]
        rcases env.create_failure dest with _ | e'
        · simp only
          by_cases h1 : path_str_ok src = false
          · simp [h1]
          · by_cases h2 : path_str_ok dest = false
            · simp [h1, h2]
            · simp [h1, h2]
        · simp
    · simp
  · by_cases h1 : path_str_ok src = false
    · simp [h1]
    · by_cases h2 : path_str_ok dest = false
      · simp [h1, h2]
      · simp [h1, h2]

/-- In dry-run mode the copy attempt never touches the filesystem. -/
lemma copy_dry_fs (env : Env) (src dest : Path) (fs : FS) (i : Nat) :
    (copy_to_non_existant env src dest true fs i).fs = fs := by
  unfold copy_to_non_existant
  by_cases h1 : path_str_ok src = false
  · simp [h1]
  · by_cases h2 : path_str_ok dest = false
    · simp [h1, h2]
    · simp [h1, h2]

/-- In dry-run mode the attempt either fails to decode a path or dispatches
a task that immediately succeeds. -/
lemma copy_dry_outcome (env : Env) (src dest : Path) (fs : FS) (i : Nat) :
    (copy_to_non_existant env src dest true fs i).outcome =
      Except.error IoError.utf8Decode ∨
    (copy_to_non_existant env src dest true fs i).outcome =
      Except.ok (Except.ok ()) := by
  unfold copy_to_non_existant
  by_cases h1 : path_str_ok src = false
  · simp [h1]
  · by_cases h2 : path_str_ok dest = false
    · simp [h1, h2]
    · simp [h1, h2]

/-- In dry-run mode, UTF-8-decodable paths make the attempt succeed. -/
lemma copy_dry_ok (env : Env) (src dest : Path) (fs : FS) (i : Nat)
    (h1 : path_str_ok src = true) (h2 : path_str_ok dest = true) :
    (copy_to_non_existant env src dest true fs i).outcome =
      Except.ok (Except.ok ()) := by
  unfold copy_to_non_existant
  simp [h1, h2]

/-- Real mode, destination present: the attempt fails with the distinct
already-exists error (once the source opened), and creates nothing. -/
lemma copy_real_exists (env : Env) (src dest : Path) (fs : FS) (i : Nat)
    (hopen : env.open_src src = none) (hm : dest ∈ fs) :
    copy_to_non_existant env src dest false fs i =
      ⟨fs, Except.error IoError.alreadyExists⟩ := by
  unfold copy_to_non_existant
  simp [hopen, hm]

/-- Real mode, destination absent, no external failure, decodable paths:
the attempt creates the destination and dispatches the copy task. -/
lemma copy_real_creates (env : Env) (src dest : Path) (fs : FS) (i : Nat)
    (hopen : env.open_src src = none) (hm : dest ∉ fs)
    (hcf : env.create_failure dest = none)
    (h1 : path_str_ok src = true) (h2 : path_str_ok dest = true) :
    copy_to_non_existant env src dest false fs i =
      ⟨dest :: fs,
       Except.ok (match env.copy_result i with
                  | some e => Except.error e
                  | none => Except.ok ())⟩ := by
  unfold copy_to_non_existant
  simp [hopen, hm, hcf, h1, h2]

/-- Real mode with a source-open failure: the error is returned before
anything is created. -/
lemma copy_real_open_fails (env : Env) (src dest : Path) (fs : FS) (i : Nat)
    {e : IoError} (hopen : env.open_src src = some e) :
    copy_to_non_existant env src dest false fs i = ⟨fs, Except.error e⟩ := by
  unfold copy_to_non_existant
  simp [hopen]

/-! One-step Coordinator lemmas. -/

/-- Case analysis of one Coordinator iteration, as used by the counting
arguments: either exactly one non-`FoundSrcDocument` statistic is appended
and the loop continues, or no statistic is appended — and in that second
case the step only continues when the book had no extractable file name. -/
lemma sync_one_spec (env : Env) (dd : Path) (dry : Bool) (st : SyncState) (b : Path) :
    (∃ s, (sync_one env dd dry st b).1.stats = st.stats ++ [s] ∧
          s ≠ Statistic.FoundSrcDocument ∧
          (sync_one env dd dry st b).2 = none) ∨
    ((sync_one env dd dry st b).1.stats = st.stats ∧
     ((sync_one env dd dry st b).2 = none → file_name b = none)) := by
  rcases hf : file_name b with _ | name
  · right
    simp [sync_one, hf]
  · rcases ho : (copy_to_non_existant env b (dd ++ [name]) dry st.fs st.tasks.length).outcome
      with e | task
    · by_cases hp : path_str_ok (dd ++ [name])
      · left
        exact ⟨Statistic.NotCopiedBecauseAlreadyExistedAtDest,
               by simp [sync_one, hf, ho, hp], by simp, by simp [sync_one, hf, ho, hp]⟩
      · right
        constructor
        · simp [sync_one, hf, ho, hp]
        · simp [sync_one, hf, ho, hp]
    · left
      exact ⟨Statistic.Copied, by simp [sync_one, hf, ho], by simp,
             by simp [sync_one, hf, ho]⟩

/-- One Coordinator iteration can only grow the filesystem. -/
lemma sync_one_fs_mono (env : Env) (dd : Path) (dry : Bool) (st : SyncState)
    (b : Path) {x : Path} (hx : x ∈ st.fs) :
    x ∈ (sync_one env dd dry st b).1.fs := by
  rcases hf : file_name b with _ | name
  · simpa [sync_one, hf] using hx
  · have hcases := copy_fs_cases env b (dd ++ [name]) dry st.fs st.tasks.length
    rcases ho : (copy_to_non_existant env b (dd ++ [name]) dry st.fs st.tasks.length).outcome
      with e | task
    · by_cases hp : path_str_ok (dd ++ [name])
      · simp only [sync_one, hf, ho, hp, if_true]
        rcases hcases with h | h <;> simp [h, hx]
      · simp only [sync_one, hf, ho, hp, if_false]
        rcases hcases with h | h <;> simp [h, hx]
    · simp only [sync_one, hf, ho]
      rcases hcases with h | h <;> simp [h, hx]

/-! Coordinator-loop lemmas. -/

/-- The receive loop only ever grows the filesystem. -/
lemma sync_loop_fs_mono (env : Env) (dd : Path) (dry : Bool) :
    ∀ (books : List Path) (st : SyncState) {x : Path}, x ∈ st.fs →
      x ∈ (sync_books_loop env dd dry st books).1.fs := by
  intro books
  induction books with
  | nil => intro st x hx; simpa [sync_books_loop] using hx
  | cons b bs ih =>
    intro st x hx
    have hx' := sync_one_fs_mono env dd dry st b hx
    rcases hs : sync_one env dd dry st b with ⟨st', _ | e⟩
    · rw [hs] at hx'
      simp only [sync_books_loop, hs]
      exact ih st' hx'
    · rw [hs] at hx'
      simpa [sync_books_loop, hs] using hx'

/-- The Coordinator never emits `FoundSrcDocument`: the loop preserves the
found-count of the statistics it appends to. -/
lemma sync_loop_no_found (env : Env) (dd : Path) (dry : Bool) :
    ∀ (books : List Path) (st : SyncState),
      count_found (sync_books_loop env dd dry st books).1.stats =
        count_found st.stats := by
  intro books
  induction books with
  | nil => intro st; simp [sync_books_loop]
  | cons b bs ih =>
    intro st
    have hspec := sync_one_spec env dd dry st b
    rcases hs : sync_one env dd dry st b with ⟨st', _ | e⟩
    · rw [hs] at hspec
      simp only [sync_books_loop, hs]
      rw [ih st']
      rcases hspec with ⟨s, hst, hs_ne, _⟩ | ⟨hst, _⟩
      · rw [hst, count_found_append]
        cases s
        · exact absurd rfl hs_ne
        · simp [count_found]
        · simp [count_found]
      · rw [hst]
    · rw [hs] at hspec
      simp only [sync_books_loop, hs]
      rcases hspec with ⟨s, hst, hs_ne, hnone⟩ | ⟨hst, _⟩
      · cases hnone
      · rw [hst]

/-- When every received candidate has an extractable file name and the loop
finishes without a fatal error, it emits exactly one statistic per
candidate. -/
lemma sync_loop_stats_len (env : Env) (dd : Path) (dry : Bool) :
    ∀ (books : List Path) (st st' : SyncState),
      (∀ b ∈ books, (file_name b).isSome = true) →
      sync_books_loop env dd dry st books = (st', none) →
      st'.stats.length = st.stats.length + books.length := by
  intro books
  induction books with
  | nil =>
    intro st st' _ hloop
    simp only [sync_books_loop] at hloop
    cases hloop
    simp
  | cons b bs ih =>
    intro st st' hnames hloop
    have hspec := sync_one_spec env dd dry st b
    rcases hs : sync_one env dd dry st b with ⟨st₁, _ | e⟩
    · rw [hs] at hspec
      rw [sync_books_loop, hs] at hloop
      have hlen := ih st₁ st' (fun b' hb' => hnames b' (by simp [hb'])) hloop
      rcases hspec with ⟨s, hst, _, _⟩ | ⟨hst, himp⟩
      · rw [hlen, hst]
        simp [Nat.add_assoc, Nat.add_comm 1]
      · have hb := hnames b (by simp)
        rw [himp rfl] at hb
        cases hb
    · rw [sync_books_loop, hs] at hloop
      cases hloop

/-- Dry-run: the loop leaves the filesystem untouched, whether or not it
aborts. -/
lemma sync_loop_dry_fs (env : Env) (dd : Path) :
    ∀ (books : List Path) (st : SyncState),
      (sync_books_loop env dd true st books).1.fs = st.fs := by
  intro books
  induction books with
  | nil => intro st; simp [sync_books_loop]
  | cons b bs ih =>
    intro st
    have hfs : (sync_one env dd true st b).1.fs = st.fs := by
      rcases hf : file_name b with _ | name
      · simp [sync_one, hf]
      · have hdry := copy_dry_fs env b (dd ++ [name]) st.fs st.tasks.length
        rcases ho : (copy_to_non_existant env b (dd ++ [name]) true st.fs st.tasks.length).outcome
          with e | task
        · by_cases hp : path_str_ok (dd ++ [name])
          · simp [sync_one, hf, ho, hp, hdry]
          · simp [sync_one, hf, ho, hp, hdry]
        · simp [sync_one, hf, ho, hdry]
    rcases hs : sync_one env dd true st b with ⟨st₁, _ | e⟩
    · rw [hs] at hfs
      simp only [sync_books_loop, hs]
      rw [ih st₁]
      exact hfs
    · rw [hs] at hfs
      simpa [sync_books_loop, hs] using hfs

/-- Dry-run: every task handle the loop collects is an immediately
successful task. -/
lemma sync_loop_dry_tasks (env : Env) (dd : Path) :
    ∀ (books : List Path) (st : SyncState),
      (∀ t ∈ st.tasks, t = Except.ok ()) →
      ∀ t ∈ (sync_books_loop env dd true st books).1.tasks, t = Except.ok () := by
  intro books
  induction books with
  | nil =>
    intro st hok t ht
    exact hok t (by simpa [sync_books_loop] using ht)
  | cons b bs ih =>
    intro st hok
    have hone : ∀ t ∈ (sync_one env dd true st b).1.tasks, t = Except.ok () := by
      rcases hf : file_name b with _ | name
      · intro t ht; exact hok t (by simpa [sync_one, hf] using ht)
      · have hcases := copy_dry_outcome env b (dd ++ [name]) st.fs st.tasks.length
        rcases ho : (copy_to_non_existant env b (dd ++ [name]) true st.fs st.tasks.length).outcome
          with e | task
        · by_cases hp : path_str_ok (dd ++ [name])
          · intro t ht; exact hok t (by simpa [sync_one, hf, ho, hp] using ht)
          · intro t ht; exact hok t (by simpa [sync_one, hf, ho, hp] using ht)
        · have htask : task = Except.ok () := by
            rcases hcases with h | h
            · rw [ho] at h; cases h
            · rw [ho] at h; exact Except.ok.inj h
          intro t ht
          have ht' : t ∈ st.tasks ++ [task] := by simpa [sync_one, hf, ho] using ht
          rcases List.mem_append.mp ht' with h | h
          · exact hok t h
          · simp at h; rw [h, htask]
    rcases hs : sync_one env dd true st b with ⟨st₁, _ | e⟩
    · rw [hs] at hone
      simp only [sync_books_loop, hs]
      exact ih st₁ hone
    · rw [hs] at hone
      intro t ht
      exact hone t (by simpa [sync_books_loop, hs] using ht)

/-- Awaiting a list of all-successful task results yields no error. -/
lemma join_tasks_of_all_ok :
    ∀ l : List (Except IoError Unit), (∀ t ∈ l, t = Except.ok ()) →
      join_tasks l = none := by
  intro l
  induction l with
  | nil => intro _; simp [join_tasks]
  | cons t rest ih =>
    intro hok
    have ht : t = Except.ok () := hok t (by simp)
    subst ht
    rw [join_tasks]
    exact ih fun t' h => hok t' (by simp [h])

/-- A list of all-successful task results is a `replicate` of successes. -/
lemma eq_replicate_of_all_ok :
    ∀ l : List (Except IoError Unit), (∀ t ∈ l, t = Except.ok ()) →
      l = List.replicate l.length (Except.ok ()) := by
  intro l
  induction l with
  | nil => intro _; simp
  | cons t rest ih =>
    intro hok
    have ht : t = Except.ok () := hok t (by simp)
    subst ht
    rw [List.length_cons, List.replicate_succ]
    rw [← ih fun t' h => hok t' (by simp [h])]

/-- A benign environment (no external failure), a decodable destination
directory and decodable candidates with extractable names: the receive loop
never aborts, and afterwards every candidate's destination path exists in
the filesystem (it was either just created or already present). -/
lemma sync_loop_benign (env : Env) (dd : Path)
    (hopen : ∀ p, env.open_src p = none) (hcf : ∀ p, env.create_failure p = none)
    (hdd : path_str_ok dd = true) :
    ∀ (books : List Path) (st : SyncState),
      (∀ b ∈ books, path_str_ok b = true ∧ (file_name b).isSome = true) →
      (sync_books_loop env dd false st books).2 = none ∧
      ∀ b ∈ books, ∀ n, file_name b = some n →
        dd ++ [n] ∈ (sync_books_loop env dd false st books).1.fs := by
  intro books
  induction books with
  | nil =>
    intro st _
    refine ⟨by simp [sync_books_loop], ?_⟩
    intro b hb
    simp at hb
  | cons b bs ih =>
    intro st hb
    obtain ⟨hpb, hsb⟩ := hb b (by simp)
    obtain ⟨name, hf⟩ := Option.isSome_iff_exists.mp hsb
    have hpd : path_str_ok (dd ++ [name]) = true :=
      path_str_ok_append_file_name hdd hpb hf
    have hb' : ∀ x ∈ bs, path_str_ok x = true ∧ (file_name x).isSome = true :=
      fun x hx => hb x (by simp [hx])
    by_cases hm : dd ++ [name] ∈ st.fs
    · have hatt := copy_real_exists env b (dd ++ [name]) st.fs st.tasks.length
        (hopen b) hm
      have hsync : sync_one env dd false st b =
          ({ st with fs := st.fs,
                     stats := st.stats ++ [Statistic.NotCopiedBecauseAlreadyExistedAtDest] },
           none) := by
        simp [sync_one, hf, hatt, hpd]
      rw [sync_books_loop, hsync]
      obtain ⟨herr, hmem⟩ := ih _ hb'
      refine ⟨herr, ?_⟩
      intro x hx n hn
      rcases List.mem_cons.mp hx with hx | hx
      · subst hx
        rw [hf] at hn
        cases hn
        exact sync_loop_fs_mono env dd false bs _ (by simpa using hm)
      · exact hmem x hx n hn
    · have hatt := copy_real_creates env b (dd ++ [name]) st.fs st.tasks.length
        (hopen b) hm (hcf _) hpb hpd
      have hsync : sync_one env dd false st b =
          ({ fs := (dd ++ [name]) :: st.fs,
             tasks := st.tasks ++
               [match env.copy_result st.tasks.length with
                | some e => Except.error e
                | none => Except.ok ()],
             stats := st.stats ++ [Statistic.Copied] }, none) := by
        simp [sync_one, hf, hatt]
      rw [sync_books_loop, hsync]
      obtain ⟨herr, hmem⟩ := ih _ hb'
      refine ⟨herr, ?_⟩
      intro x hx n hn
      rcases List.mem_cons.mp hx with hx | hx
      · subst hx
        rw [hf] at hn
        cases hn
        exact sync_loop_fs_mono env dd false bs _ (by simp)
      · exact hmem x hx n hn

/-- When every candidate's destination already exists (and paths decode),
the real-mode loop — under ANY environment — skips every candidate: it
emits one already-exists statistic per candidate, changes nothing, and
collects no task. -/
lemma sync_loop_all_skip (env : Env) (dd : Path) (hdd : path_str_ok dd = true) :
    ∀ (books : List Path) (st : SyncState),
      (∀ b ∈ books, path_str_ok b = true ∧
        ∃ n, file_name b = some n ∧ dd ++ [n] ∈ st.fs) →
      sync_books_loop env dd false st books =
        ({ st with stats := st.stats ++
             (List.replicate books.length
               Statistic.NotCopiedBecauseAlreadyExistedAtDest) }, none) := by
  intro books
  induction books with
  | nil => intro st _; simp [sync_books_loop]
  | cons b bs ih =>
    intro st hb
    obtain ⟨hpb, name, hf, hm⟩ := hb b (by simp)
    have hpd : path_str_ok (dd ++ [name]) = true :=
      path_str_ok_append_file_name hdd hpb hf
    have hatt : copy_to_non_existant env b (dd ++ [name]) false st.fs st.tasks.length =
        ⟨st.fs, Except.error ((env.open_src b).getD IoError.alreadyExists)⟩ := by
      rcases ho : env.open_src b with _ | e
      · simpa [ho] using copy_real_exists env b (dd ++ [name]) st.fs st.tasks.length ho hm
      · simpa [ho] using copy_real_open_fails env b (dd ++ [name]) st.fs st.tasks.length ho
    have hsync : sync_one env dd false st b =
        ({ st with fs := st.fs,
                   stats := st.stats ++ [Statistic.NotCopiedBecauseAlreadyExistedAtDest] },
         none) := by
      simp [sync_one, hf, hatt, hpd]
    have hstep : sync_books_loop env dd false st (b :: bs) =
        sync_books_loop env dd false
          ({ st with fs := st.fs,
                     stats := st.stats ++ [Statistic.NotCopiedBecauseAlreadyExistedAtDest] })
          bs := by
      rw [sync_books_loop, hsync]
    rw [hstep]
    have hb' : ∀ x ∈ bs, path_str_ok x = true ∧
        ∃ n, file_name x = some n ∧ dd ++ [n] ∈
          ({ st with fs := st.fs,
                     stats := st.stats ++ [Statistic.NotCopiedBecauseAlreadyExistedAtDest] }
            : SyncState).fs := by
      intro x hx
      obtain ⟨hp, n, hn, hmem⟩ := hb x (by simp [hx])
      exact ⟨hp, n, hn, by simpa using hmem⟩
    rw [ih _ hb']
    simp [List.replicate_succ]

/-- `sync_books` in terms of its receive loop and join loop: its state is
the loop's final state, and its error is the loop's error or, failing that,
the join loop's first task error. -/
lemma sync_books_eq (env : Env) (dd : Path) (dry : Bool) (fs0 : FS) (books : List Path) :
    sync_books env dd dry fs0 books =
      ((sync_books_loop env dd dry ⟨fs0, [], []⟩ books).1,
        match (sync_books_loop env dd dry ⟨fs0, [], []⟩ books).2 with
        | some e => some e
        | none => join_tasks (sync_books_loop env dd dry ⟨fs0, [], []⟩ books).1.tasks) := by
  unfold sync_books
  rcases sync_books_loop env dd dry ⟨fs0, [], []⟩ books with ⟨st, _ | e⟩ <;> simp

/-- Real mode, destination absent, no external create failure: the
destination file is created, whether or not the paths later decode for the
completion message. -/
lemma copy_real_creates_fs (env : Env) (src dest : Path) (fs : FS) (i : Nat)
    (hopen : env.open_src src = none) (hm : dest ∉ fs)
    (hcf : env.create_failure dest = none) :
    (copy_to_non_existant env src dest false fs i).fs = dest :: fs := by
  unfold copy_to_non_existant
  by_cases h1 : path_str_ok src = false
  · simp [hopen, hm, hcf, h1]
  · by_cases h2 : path_str_ok dest = false
    · simp [hopen, hm, hcf, h1, h2]
    · simp [hopen, hm, hcf, h1, h2]

/-- `run_pipeline` unfolded (pure zeta reduction of its let bindings). -/
lemma run_pipeline_eq (env : Env) (exts : List OsString) (dirs : List WalkStream)
    (dest_dir : Path) (dry : Bool) (fs0 : FS) :
    run_pipeline env exts dirs dest_dir dry fs0 =
      { fs := (sync_books env dest_dir dry fs0 (find_books exts dirs).1).1.fs
        summary := collect_stats
          ((find_books exts dirs).1.map (fun _ => Statistic.FoundSrcDocument) ++
            (sync_books env dest_dir dry fs0 (find_books exts dirs).1).1.stats)
        err := match (sync_books env dest_dir dry fs0 (find_books exts dirs).1).2 with
               | some e => some e
               | none => (find_books exts dirs).2 } := rfl

/-- Every Scanner candidate has an extension in the configured set, hence
an extractable file name. -/
lemma scanner_names (exts : List OsString) (dirs : List WalkStream) :
    ∀ b ∈ (find_books exts dirs).1, (file_name b).isSome = true := by
  intro b hb
  obtain ⟨e, he, _⟩ := find_books_mem exts dirs b hb
  obtain ⟨n, hn⟩ := file_name_isSome_of_path_extension he
  simp [hn]

/-! The claims. -/

/-- C1: the spec's scenario — one source directory holding exactly a.epub,
b.pdf and c.txt, empty destination, the fixed extension configuration,
dry_run = false — is claimed to complete with found = 2, copied = 2,
skipped = 0 and the destination holding a.epub and b.pdf.  The code does
not do this: `EXTENSIONS_TO_SYNCHRONISE` is `["epub", ".pdf"]`, and
`Path::extension()` never yields a leading dot, so `b.pdf` can never match;
the run completes with found = 1, copied = 1, skipped = 0 and only a.epub
at the destination.  This contradicts the program's own long-about text,
which says it synchronises EPUB **and PDF** files. -/
theorem C1_scenario_pdf_never_copied :
    (run_pipeline benign_env EXTENSIONS_TO_SYNCHRONISE
      [[Except.ok [asciiBytes "Documents", asciiBytes "a.epub"],
        Except.ok [asciiBytes "Documents", asciiBytes "b.pdf"],
        Except.ok [asciiBytes "Documents", asciiBytes "c.txt"]]]
      [asciiBytes "KOBOeReader"] false []).summary =
      ⟨1, 0, 1⟩ ∧
    (run_pipeline benign_env EXTENSIONS_TO_SYNCHRONISE
      [[Except.ok [asciiBytes "Documents", asciiBytes "a.epub"],
        Except.ok [asciiBytes "Documents", asciiBytes "b.pdf"],
        Except.ok [asciiBytes "Documents", asciiBytes "c.txt"]]]
      [asciiBytes "KOBOeReader"] false []).fs =
      [[asciiBytes "KOBOeReader", asciiBytes "a.epub"]] ∧
    (run_pipeline benign_env EXTENSIONS_TO_SYNCHRONISE
      [[Except.ok [asciiBytes "Documents", asciiBytes "a.epub"],
        Except.ok [asciiBytes "Documents", asciiBytes "b.pdf"],
        Except.ok [asciiBytes "Documents", asciiBytes "c.txt"]]]
      [asciiBytes "KOBOeReader"] false []).err = none := by
  refine ⟨by decide, by decide, by decide⟩

/-- C2 counterexample: a source whose open fails with a permissions error
is NOT a fatal error — `if let Ok(copy_op) = copy_to_non_existant(...)`
discards the cause, the loop continues, and the candidate is counted as
skipped-because-already-existing; `sync_books` returns success. -/
theorem C2_counterexample :
    sync_books
      { open_src := fun _ => some IoError.permissionDenied
        create_failure := fun _ => none
        copy_result := fun _ => none }
      [asciiBytes "KOBOeReader"] false []
      [[asciiBytes "Documents", asciiBytes "a.epub"]] =
      ({ fs := [], tasks := [],
         stats := [Statistic.NotCopiedBecauseAlreadyExistedAtDest] }, none) := by
  decide

/-- C2 amended: when the setup of a copy fails for ANY reason — already
existing or otherwise — the Coordinator does not abort: it counts the
candidate as skipped-because-already-existing and continues, provided only
that the destination path decodes to UTF-8 for the skip notice (a decode
failure there is the one way this branch aborts the loop). -/
theorem C2_any_setup_error_is_skipped (env : Env) (dest_dir : Path) (dry : Bool)
    (st : SyncState) (book : Path) (book_name : OsString) (e : IoError)
    (hf : file_name book = some book_name)
    (he : (copy_to_non_existant env book (dest_dir ++ [book_name]) dry st.fs
            st.tasks.length).outcome = Except.error e)
    (hp : path_str_ok (dest_dir ++ [book_name]) = true) :
    sync_one env dest_dir dry st book =
      ({ st with
           fs := (copy_to_non_existant env book (dest_dir ++ [book_name]) dry st.fs
                   st.tasks.length).fs,
           stats := st.stats ++ [Statistic.NotCopiedBecauseAlreadyExistedAtDest] },
       none) := by
  simp [sync_one, hf, he, hp]

/-- C2 witness: the amended statement at a concrete input (permission
failure on the source). -/
theorem C2_witness :
    sync_one
      { open_src := fun _ => some IoError.permissionDenied
        create_failure := fun _ => none
        copy_result := fun _ => none }
      [asciiBytes "KOBOeReader"] false ⟨[], [], []⟩
      [asciiBytes "Documents", asciiBytes "a.epub"] =
      ({ fs := [], tasks := [],
         stats := [Statistic.NotCopiedBecauseAlreadyExistedAtDest] }, none) := by
  have h := C2_any_setup_error_is_skipped
    { open_src := fun _ => some IoError.permissionDenied
      create_failure := fun _ => none
      copy_result := fun _ => none }
    [asciiBytes "KOBOeReader"] false ⟨[], [], []⟩
    [asciiBytes "Documents", asciiBytes "a.epub"] (asciiBytes "a.epub")
    IoError.permissionDenied (by decide) (by decide) (by decide)
  simpa using h

/-- C3 counterexample: with task results [ok, err1, err2] the join loop of
lines 190-192 awaits only TWO of the three dispatched handles — `?` aborts
it at the first failure, so the third handle is left undrained, contrary to
the claim that every remaining task is still awaited. -/
theorem C3_counterexample :
    awaited_count
      [Except.ok (), Except.error IoError.otherIo, Except.error IoError.diskFull] = 2 ∧
    join_tasks
      [Except.ok (), Except.error IoError.otherIo, Except.error IoError.diskFull] =
      some IoError.otherIo := by
  decide

/-- C3 amended: the Coordinator awaits the dispatched handles in dispatch
(FIFO) order only up to and including the first failing one, whose error it
returns; handles dispatched after the first failure are not awaited (left
undrained, though not cancelled). -/
theorem C3_first_error_aborts_join (pre post : List (Except IoError Unit)) (e : IoError)
    (hok : ∀ t ∈ pre, t = Except.ok ()) :
    join_tasks (pre ++ Except.error e :: post) = some e ∧
    awaited_count (pre ++ Except.error e :: post) = pre.length + 1 := by
  induction pre with
  | nil => simp [join_tasks, awaited_count]
  | cons t rest ih =>
    have ht : t = Except.ok () := hok t (by simp)
    subst ht
    have := ih fun t' h => hok t' (by simp [h])
    simp only [List.cons_append, join_tasks, awaited_count, List.append_eq]
    exact ⟨this.1, by rw [this.2]; simp⟩

/-- C3 witness: the amended statement at a concrete input. -/
theorem C3_witness :
    join_tasks
      [Except.ok (), Except.error IoError.diskFull, Except.ok ()] =
      some IoError.diskFull ∧
    awaited_count
      [Except.ok (), Except.error IoError.diskFull, Except.ok ()] = 2 := by
  have h := C3_first_error_aborts_join [Except.ok ()] [Except.ok ()]
    IoError.diskFull (by intro t ht; simpa using ht)
  simpa using h

/-- C4: for every run that completes successfully, the summary counters
satisfy found = skipped + copied: each found candidate resolves to exactly
one of the two terminal statistics. -/
theorem C4_conservation (env : Env) (exts : List OsString) (dirs : List WalkStream)
    (dest_dir : Path) (dry : Bool) (fs0 : FS)
    (h : (run_pipeline env exts dirs dest_dir dry fs0).err = none) :
    (run_pipeline env exts dirs dest_dir dry fs0).summary.found_src_documents =
      (run_pipeline env exts dirs dest_dir dry fs0).summary.not_copied +
        (run_pipeline env exts dirs dest_dir dry fs0).summary.copied := by
  have h' : (match (sync_books env dest_dir dry fs0 (find_books exts dirs).1).2 with
             | some e => some e
             | none => (find_books exts dirs).2) = (none : Option IoError) := by
    simpa [run_pipeline_eq] using h
  have hsync2 : (sync_books env dest_dir dry fs0 (find_books exts dirs).1).2 = none := by
    rcases hs : (sync_books env dest_dir dry fs0 (find_books exts dirs).1).2 with _ | e
    · rfl
    · rw [hs] at h'; cases h'
  have hloop2 : (sync_books_loop env dest_dir dry ⟨fs0, [], []⟩
      (find_books exts dirs).1).2 = none := by
    rw [sync_books_eq] at hsync2
    rcases hl : (sync_books_loop env dest_dir dry ⟨fs0, [], []⟩ (find_books exts dirs).1).2
      with _ | e
    · rfl
    · rw [hl] at hsync2; cases hsync2
  rcases hL : sync_books_loop env dest_dir dry ⟨fs0, [], []⟩ (find_books exts dirs).1
    with ⟨st', e2⟩
  have he2 : e2 = none := by rw [hL] at hloop2; exact hloop2
  subst he2
  have hlen : st'.stats.length = 0 + (find_books exts dirs).1.length := by
    simpa using sync_loop_stats_len env dest_dir dry (find_books exts dirs).1
      ⟨fs0, [], []⟩ st' (scanner_names exts dirs) hL
  have hnf : count_found st'.stats = 0 := by
    have := sync_loop_no_found env dest_dir dry (find_books exts dirs).1 ⟨fs0, [], []⟩
    rw [hL] at this
    simpa [count_found] using this
  have hsb1 : (sync_books env dest_dir dry fs0 (find_books exts dirs).1).1 = st' := by
    rw [sync_books_eq, hL]
  rw [run_pipeline_eq]
  simp only [hsb1, collect_stats_spec, count_found_append, count_not_copied_append,
    count_copied_append]
  obtain ⟨hm1, hm2, hm3⟩ := counts_of_map_found (find_books exts dirs).1
  have hlc := length_eq_counts st'.stats
  rw [hm1, hm2, hm3, hnf]
  omega

/-- C4 witness: the conservation identity at a concrete completed run. -/
theorem C4_witness :
    (run_pipeline benign_env EXTENSIONS_TO_SYNCHRONISE
      [[Except.ok [asciiBytes "Documents", asciiBytes "x.epub"],
        Except.ok [asciiBytes "Documents", asciiBytes "notes.txt"]]]
      [asciiBytes "KOBOeReader"] false
      [[asciiBytes "KOBOeReader", asciiBytes "x.epub"]]).summary.found_src_documents =
      (run_pipeline benign_env EXTENSIONS_TO_SYNCHRONISE
        [[Except.ok [asciiBytes "Documents", asciiBytes "x.epub"],
          Except.ok [asciiBytes "Documents", asciiBytes "notes.txt"]]]
        [asciiBytes "KOBOeReader"] false
        [[asciiBytes "KOBOeReader", asciiBytes "x.epub"]]).summary.not_copied +
        (run_pipeline benign_env EXTENSIONS_TO_SYNCHRONISE
          [[Except.ok [asciiBytes "Documents", asciiBytes "x.epub"],
            Except.ok [asciiBytes "Documents", asciiBytes "notes.txt"]]]
          [asciiBytes "KOBOeReader"] false
          [[asciiBytes "KOBOeReader", asciiBytes "x.epub"]]).summary.copied :=
  C4_conservation benign_env EXTENSIONS_TO_SYNCHRONISE
    [[Except.ok [asciiBytes "Documents", asciiBytes "x.epub"],
      Except.ok [asciiBytes "Documents", asciiBytes "notes.txt"]]]
    [asciiBytes "KOBOeReader"] false
    [[asciiBytes "KOBOeReader", asciiBytes "x.epub"]] (by decide)

/-- C5: in real mode the destination file comes into being through the one
atomic create-if-absent step (`OpenOptions::new().write(true).create_new(true)`):
given that the source opens and no external create failure intervenes, the
create succeeds — the destination appears — exactly when no file existed at
the destination path, and when one did exist the attempt fails with the
distinct already-exists error, changing nothing. -/
theorem C5_exclusive_create (env : Env) (fs : FS) (src dest : Path) (i : Nat)
    (hopen : env.open_src src = none) (hcf : env.create_failure dest = none) :
    ((copy_to_non_existant env src dest false fs i).fs = dest :: fs ↔ dest ∉ fs) ∧
    (dest ∈ fs →
      copy_to_non_existant env src dest false fs i =
        ⟨fs, Except.error IoError.alreadyExists⟩) := by
  constructor
  · constructor
    · intro hfs hm
      rw [copy_real_exists env src dest fs i hopen hm] at hfs
      exact List.cons_ne_self dest fs hfs.symm
    · intro hm
      exact copy_real_creates_fs env src dest fs i hopen hm hcf
  · intro hm
    exact copy_real_exists env src dest fs i hopen hm

/-- C5 witness: the exclusive-create dichotomy at concrete inputs. -/
theorem C5_witness :
    ((copy_to_non_existant benign_env [asciiBytes "Documents", asciiBytes "x.epub"]
        [asciiBytes "KOBOeReader", asciiBytes "x.epub"] false [] 0).fs =
        [asciiBytes "KOBOeReader", asciiBytes "x.epub"] :: [] ↔
      [asciiBytes "KOBOeReader", asciiBytes "x.epub"] ∉ ([] : FS)) ∧
    ([asciiBytes "KOBOeReader", asciiBytes "x.epub"] ∈ ([] : FS) →
      copy_to_non_existant benign_env [asciiBytes "Documents", asciiBytes "x.epub"]
        [asciiBytes "KOBOeReader", asciiBytes "x.epub"] false [] 0 =
        ⟨[], Except.error IoError.alreadyExists⟩) :=
  C5_exclusive_create benign_env [] [asciiBytes "Documents", asciiBytes "x.epub"]
    [asciiBytes "KOBOeReader", asciiBytes "x.epub"] 0 rfl rfl

/-- C6 counterexample: a dry-run copy attempt does NOT succeed regardless
of the paths involved — a source path that does not decode to UTF-8 (here
the lone byte 0xFF) makes `path_str` fail, so the dry-run attempt returns
an error instead of success. -/
theorem C6_counterexample :
    (copy_to_non_existant benign_env [[0xFF]]
      [asciiBytes "KOBOeReader", asciiBytes "x.epub"] true [] 0).outcome =
      Except.error IoError.utf8Decode := by
  decide

/-- C6 amended: a dry run performs no filesystem mutation whatsoever — the
whole pipeline returns the destination namespace unchanged, and a single
dry-run attempt never touches it — and every dry-run copy attempt whose
source and destination paths decode to UTF-8 prints its intent line and
succeeds; an attempt with an undecodable path instead fails with the
path-decoding error (still mutating nothing). -/
theorem C6_dry_run_no_mutation (env : Env) (exts : List OsString)
    (dirs : List WalkStream) (dest_dir : Path) (fs0 : FS) (fs : FS)
    (src dest : Path) (i : Nat)
    (h1 : path_str_ok src = true) (h2 : path_str_ok dest = true) :
    (run_pipeline env exts dirs dest_dir true fs0).fs = fs0 ∧
    (copy_to_non_existant env src dest true fs i).fs = fs ∧
    (copy_to_non_existant env src dest true fs i).outcome =
      Except.ok (Except.ok ()) := by
  refine ⟨?_, copy_dry_fs env src dest fs i, copy_dry_ok env src dest fs i h1 h2⟩
  have hfs := sync_loop_dry_fs env dest_dir (find_books exts dirs).1 ⟨fs0, [], []⟩
  simp only [run_pipeline_eq, sync_books_eq]
  exact hfs

/-- C6 witness: the amended dry-run statement at concrete inputs. -/
theorem C6_witness :
    (run_pipeline benign_env EXTENSIONS_TO_SYNCHRONISE
      [[Except.ok [asciiBytes "Documents", asciiBytes "x.epub"]]]
      [asciiBytes "KOBOeReader"] true []).fs = [] ∧
    (copy_to_non_existant benign_env [asciiBytes "Documents", asciiBytes "x.epub"]
      [asciiBytes "KOBOeReader", asciiBytes "x.epub"] true [] 0).fs = [] ∧
    (copy_to_non_existant benign_env [asciiBytes "Documents", asciiBytes "x.epub"]
      [asciiBytes "KOBOeReader", asciiBytes "x.epub"] true [] 0).outcome =
      Except.ok (Except.ok ()) :=
  C6_dry_run_no_mutation benign_env EXTENSIONS_TO_SYNCHRONISE
    [[Except.ok [asciiBytes "Documents", asciiBytes "x.epub"]]]
    [asciiBytes "KOBOeReader"] [] []
    [asciiBytes "Documents", asciiBytes "x.epub"]
    [asciiBytes "KOBOeReader", asciiBytes "x.epub"] 0 (by decide) (by decide)

/-- C7: running the real pipeline a second time over the same sources and
the destination state the first run produced yields copied = 0 and
skipped = found — every candidate's destination already exists after the
first run (whose environment was benign for open/create, though its copy
tasks may even have failed: the exclusive create already happened), so the
second run, under ANY environment, skips everything. -/
theorem C7_second_run_all_skipped (env1 env2 : Env) (exts : List OsString)
    (dirs : List WalkStream) (dest_dir : Path) (fs0 : FS)
    (hopen : ∀ p, env1.open_src p = none)
    (hcf : ∀ p, env1.create_failure p = none)
    (hscan : (find_books exts dirs).2 = none)
    (hdd : path_str_ok dest_dir = true)
    (hbooks : ∀ b ∈ (find_books exts dirs).1, path_str_ok b = true) :
    (run_pipeline env2 exts dirs dest_dir false
      (run_pipeline env1 exts dirs dest_dir false fs0).fs).summary.copied = 0 ∧
    (run_pipeline env2 exts dirs dest_dir false
      (run_pipeline env1 exts dirs dest_dir false fs0).fs).summary.not_copied =
      (run_pipeline env2 exts dirs dest_dir false
        (run_pipeline env1 exts dirs dest_dir false fs0).fs).summary.found_src_documents ∧
    (run_pipeline env2 exts dirs dest_dir false
      (run_pipeline env1 exts dirs dest_dir false fs0).fs).err = none := by
  have hnames := scanner_names exts dirs
  have hb1 : ∀ b ∈ (find_books exts dirs).1,
      path_str_ok b = true ∧ (file_name b).isSome = true :=
    fun b hb => ⟨hbooks b hb, hnames b hb⟩
  obtain ⟨herr1, hmem1⟩ := sync_loop_benign env1 dest_dir hopen hcf hdd
    (find_books exts dirs).1 ⟨fs0, [], []⟩ hb1
  have hr1fs : (run_pipeline env1 exts dirs dest_dir false fs0).fs =
      (sync_books_loop env1 dest_dir false ⟨fs0, [], []⟩ (find_books exts dirs).1).1.fs := by
    simp only [run_pipeline_eq, sync_books_eq]
  have hb2 : ∀ b ∈ (find_books exts dirs).1, path_str_ok b = true ∧
      ∃ n, file_name b = some n ∧ dest_dir ++ [n] ∈
        (⟨(run_pipeline env1 exts dirs dest_dir false fs0).fs, [], []⟩ : SyncState).fs := by
    intro b hb
    refine ⟨hbooks b hb, ?_⟩
    obtain ⟨n, hn⟩ := Option.isSome_iff_exists.mp (hnames b hb)
    refine ⟨n, hn, ?_⟩
    show dest_dir ++ [n] ∈ (run_pipeline env1 exts dirs dest_dir false fs0).fs
    rw [hr1fs]
    exact hmem1 b hb n hn
  have hskip := sync_loop_all_skip env2 dest_dir hdd (find_books exts dirs).1
    ⟨(run_pipeline env1 exts dirs dest_dir false fs0).fs, [], []⟩ hb2
  have hsb2 : sync_books env2 dest_dir false
      (run_pipeline env1 exts dirs dest_dir false fs0).fs (find_books exts dirs).1 =
      ({ fs := (run_pipeline env1 exts dirs dest_dir false fs0).fs, tasks := [],
         stats := List.replicate (find_books exts dirs).1.length
           Statistic.NotCopiedBecauseAlreadyExistedAtDest }, none) := by
    rw [sync_books_eq, hskip]
    simp [join_tasks]
  simp only [run_pipeline_eq] at hsb2
  obtain ⟨hrn1, hrn2, hrn3⟩ :=
    counts_of_replicate_not_copied (find_books exts dirs).1.length
  obtain ⟨hmf1, hmf2, hmf3⟩ := counts_of_map_found (find_books exts dirs).1
  refine ⟨?_, ?_, ?_⟩
  · simp only [run_pipeline_eq, hsb2, collect_stats_spec, count_copied_append]
    rw [hmf3, hrn3]
  · simp only [run_pipeline_eq, hsb2, collect_stats_spec, count_copied_append,
      count_not_copied_append, count_found_append]
    rw [hmf1, hmf2, hrn1, hrn2]
    omega
  · simp only [run_pipeline_eq, hsb2]
    exact hscan

/-- C7 witness: the idempotence statement at a concrete run. -/
theorem C7_witness :
    (run_pipeline benign_env EXTENSIONS_TO_SYNCHRONISE
      [[Except.ok [asciiBytes "Documents", asciiBytes "x.epub"]]]
      [asciiBytes "KOBOeReader"] false
      (run_pipeline benign_env EXTENSIONS_TO_SYNCHRONISE
        [[Except.ok [asciiBytes "Documents", asciiBytes "x.epub"]]]
        [asciiBytes "KOBOeReader"] false []).fs).summary.copied = 0 ∧
    (run_pipeline benign_env EXTENSIONS_TO_SYNCHRONISE
      [[Except.ok [asciiBytes "Documents", asciiBytes "x.epub"]]]
      [asciiBytes "KOBOeReader"] false
      (run_pipeline benign_env EXTENSIONS_TO_SYNCHRONISE
        [[Except.ok [asciiBytes "Documents", asciiBytes "x.epub"]]]
        [asciiBytes "KOBOeReader"] false []).fs).summary.not_copied =
      (run_pipeline benign_env EXTENSIONS_TO_SYNCHRONISE
        [[Except.ok [asciiBytes "Documents", asciiBytes "x.epub"]]]
        [asciiBytes "KOBOeReader"] false
        (run_pipeline benign_env EXTENSIONS_TO_SYNCHRONISE
          [[Except.ok [asciiBytes "Documents", asciiBytes "x.epub"]]]
          [asciiBytes "KOBOeReader"] false []).fs).summary.found_src_documents ∧
    (run_pipeline benign_env EXTENSIONS_TO_SYNCHRONISE
      [[Except.ok [asciiBytes "Documents", asciiBytes "x.epub"]]]
      [asciiBytes "KOBOeReader"] false
      (run_pipeline benign_env EXTENSIONS_TO_SYNCHRONISE
        [[Except.ok [asciiBytes "Documents", asciiBytes "x.epub"]]]
        [asciiBytes "KOBOeReader"] false []).fs).err = none :=
  C7_second_run_all_skipped benign_env benign_env EXTENSIONS_TO_SYNCHRONISE
    [[Except.ok [asciiBytes "Documents", asciiBytes "x.epub"]]]
    [asciiBytes "KOBOeReader"] [] (fun _ => rfl) (fun _ => rfl)
    (by decide) (by decide) (by decide)

/-- C8: a traversal error anywhere in the walk of the source directories
aborts the Scanner at once with exactly that error: the candidates are
those found before the error, and nothing is produced from the rest of the
erroring directory nor from any later directory — no partial-success
mode. -/
theorem C8_traversal_error_aborts (exts : List OsString) (ds₁ : List WalkStream)
    (es₁ : WalkStream) (e : IoError) (es₂ : WalkStream) (ds₂ : List WalkStream)
    (h1 : ∀ d ∈ ds₁, stream_clean d = true) (h2 : stream_clean es₁ = true) :
    find_books exts (ds₁ ++ (es₁ ++ Except.error e :: es₂) :: ds₂) =
      ((find_books exts ds₁).1 ++ (find_books_dir exts es₁).1, some e) :=
  find_books_error exts ds₁ es₁ e es₂ ds₂ h1 h2

/-- C8 witness: a walk error after one good entry, with one more directory
waiting: the run keeps only the earlier candidate and returns the error. -/
theorem C8_witness :
    find_books EXTENSIONS_TO_SYNCHRONISE
      ([] ++ ([Except.ok [asciiBytes "Documents", asciiBytes "x.epub"]] ++
        Except.error IoError.permissionDenied ::
          [Except.ok [asciiBytes "Documents", asciiBytes "y.epub"]]) ::
        [[Except.ok [asciiBytes "Other", asciiBytes "z.epub"]]]) =
      ((find_books EXTENSIONS_TO_SYNCHRONISE []).1 ++
        (find_books_dir EXTENSIONS_TO_SYNCHRONISE
          [Except.ok [asciiBytes "Documents", asciiBytes "x.epub"]]).1,
       some IoError.permissionDenied) :=
  C8_traversal_error_aborts EXTENSIONS_TO_SYNCHRONISE []
    [Except.ok [asciiBytes "Documents", asciiBytes "x.epub"]]
    IoError.permissionDenied
    [Except.ok [asciiBytes "Documents", asciiBytes "y.epub"]]
    [[Except.ok [asciiBytes "Other", asciiBytes "z.epub"]]]
    (by intro d hd; simp at hd) (by decide)

/-- C9: every candidate the Scanner emits has a `some` extension, hence a
`some` file name, so the Coordinator's silent-drop branch is unreachable
for Scanner-produced input; consequently, whenever the Coordinator's loop
completes without a fatal error it has emitted exactly one terminal
statistic per received candidate. -/
theorem C9_no_silent_drop (exts : List OsString) (dirs : List WalkStream) :
    (∀ p ∈ (find_books exts dirs).1,
      (path_extension p).isSome = true ∧ (file_name p).isSome = true) ∧
    ∀ (env : Env) (dest_dir : Path) (dry : Bool) (fs0 : FS),
      (sync_books env dest_dir dry fs0 (find_books exts dirs).1).2 = none →
      (sync_books env dest_dir dry fs0 (find_books exts dirs).1).1.stats.length =
        (find_books exts dirs).1.length := by
  constructor
  · intro p hp
    obtain ⟨e, he, _⟩ := find_books_mem exts dirs p hp
    exact ⟨by simp [he], scanner_names exts dirs p hp⟩
  · intro env dest_dir dry fs0 hnone
    have hloop2 : (sync_books_loop env dest_dir dry ⟨fs0, [], []⟩
        (find_books exts dirs).1).2 = none := by
      rw [sync_books_eq] at hnone
      rcases hl : (sync_books_loop env dest_dir dry ⟨fs0, [], []⟩
        (find_books exts dirs).1).2 with _ | e
      · rfl
      · rw [hl] at hnone; cases hnone
    rcases hL : sync_books_loop env dest_dir dry ⟨fs0, [], []⟩ (find_books exts dirs).1
      with ⟨st', e2⟩
    have he2 : e2 = none := by rw [hL] at hloop2; exact hloop2
    subst he2
    have hsb1 : (sync_books env dest_dir dry fs0 (find_books exts dirs).1).1 = st' := by
      rw [sync_books_eq, hL]
    rw [hsb1]
    simpa using sync_loop_stats_len env dest_dir dry (find_books exts dirs).1
      ⟨fs0, [], []⟩ st' (scanner_names exts dirs) hL

/-- C9 witness: the statement at a concrete Scanner output and a concrete
completed Coordinator run. -/
theorem C9_witness :
    ((path_extension [asciiBytes "Documents", asciiBytes "x.epub"]).isSome = true ∧
     (file_name [asciiBytes "Documents", asciiBytes "x.epub"]).isSome = true) ∧
    (sync_books benign_env [asciiBytes "KOBOeReader"] false []
      (find_books EXTENSIONS_TO_SYNCHRONISE
        [[Except.ok [asciiBytes "Documents", asciiBytes "x.epub"]]]).1).1.stats.length =
      (find_books EXTENSIONS_TO_SYNCHRONISE
        [[Except.ok [asciiBytes "Documents", asciiBytes "x.epub"]]]).1.length :=
  ⟨(C9_no_silent_drop EXTENSIONS_TO_SYNCHRONISE
      [[Except.ok [asciiBytes "Documents", asciiBytes "x.epub"]]]).1
      [asciiBytes "Documents", asciiBytes "x.epub"] (by decide),
   (C9_no_silent_drop EXTENSIONS_TO_SYNCHRONISE
      [[Except.ok [asciiBytes "Documents", asciiBytes "x.epub"]]]).2
      benign_env [asciiBytes "KOBOeReader"] false [] (by decide)⟩

/-- C10: in dry-run mode every task handle the Coordinator collects is an
immediately successful task (`spawn(async { Ok(()) })`), so the
post-exhaustion join loop awaits only successes and can never produce a
fatal error in a dry run. -/
theorem C10_dry_join_never_fails (env : Env) (dest_dir : Path) (fs0 : FS)
    (books : List Path) :
    (sync_books env dest_dir true fs0 books).1.tasks =
      List.replicate (sync_books env dest_dir true fs0 books).1.tasks.length
        (Except.ok ()) ∧
    join_tasks (sync_books env dest_dir true fs0 books).1.tasks = none := by
  have hall := sync_loop_dry_tasks env dest_dir books ⟨fs0, [], []⟩
    (by intro t ht; simp at ht)
  constructor
  · rw [sync_books_eq]
    exact eq_replicate_of_all_ok _ hall
  · rw [sync_books_eq]
    exact join_tasks_of_all_ok _ hall

end SyncBooks
